import Mathlib

/-!
Verification of the GitNexus LLM mediation layer.

This file gives a shallow embedding of the repository code under
verification and proves the specification claims about it:

* `src/core/llm/agent.ts` — `streamAgentResponse` (the event translator),
  `createChatModel` (provider selection), `invokeAgent`;
* `src/core/llm/types.ts` — the `ProviderConfig` tagged union and the
  `AgentStreamChunk` protocol;
* the tool factory (`createGraphRAGTools`) — `execute_cypher`,
  `execute_vector_cypher`, `semantic_search_with_context`,
  `get_code_content`.

Conventions of the embedding:

* Promises/async are collapsed: the outcome of each awaited external
  capability (`executeQuery`, `initEmbedder`, `embedText`, the upstream
  event stream) is passed in as an explicit `Except`/value parameter, and
  fallible code returns values of `Except`-shaped types.
* JS strings are Lean `String`s; template interpolation becomes `++`.
* JS `Date.now()` is an explicit `Nat` parameter (the clock is an external
  input).
* Numeric cell values flowing through result rows are modeled as `Int`;
  floating-point display formatting (`toFixed`) is outside the embedding
  and the claims.
-/

namespace GitNexus

/-! ### Data model: `AgentStreamChunk` and tool-call records (types.ts) -/

/-- `ToolCallInfo.status ∈ \x7bpending, running, completed, error\x7d`. -/
inductive ToolStatus where
  | pending
  | running
  | completed
  | errored
deriving DecidableEq

/-- The `args` value placed on an emitted tool chunk: `dataAny?.input ?? \x7b\x7d`.
`emptyObj` is the literal empty object; `inputVal` is a structured input
value (its identity is all the claims need, so it is carried opaquely as a
string). -/
inductive ArgsVal where
  | emptyObj
  | inputVal (s : String)
deriving DecidableEq

/-- `ToolCallInfo` from types.ts: `\x7b id, name, args, result?, status \x7d`. -/
structure ToolCallInfo where
  id : String
  name : String
  args : ArgsVal
  result : Option String
  status : ToolStatus
deriving DecidableEq

/-- `AgentStreamChunk`: discriminated union over
`content / tool_call / tool_result / error / done`. -/
inductive Chunk where
  | content (s : String)
  | toolCall (info : ToolCallInfo)
  | toolResult (info : ToolCallInfo)
  | errorChunk (msg : String)
  | done
deriving DecidableEq

/-- A chunk is terminal when it is `done` or `error`. -/
def isTerminal : Chunk → Bool
  | .done => true
  | .errorChunk _ => true
  | _ => false

/-! ### Upstream events consumed by `streamAgentResponse` (agent.ts) -/

/-- Payload of an `on_chat_model_stream` event: `dataAny?.chunk?.content`
is either a string or something non-string (structured/numeric/absent). -/
inductive TokenPayload where
  | strPayload (s : String)
  | nonStringPayload
deriving DecidableEq

/-- One upstream LangGraph event, as read by the translator.  Tool events
carry the two possible id fields `dataAny?.tool_call_id` and
`dataAny?.toolCallId` (each possibly absent).  Events of any other
`event` type produce no chunk and are collapsed into `otherEvent`. -/
inductive UpEvent where
  | toolStart (tool_call_id : Option String) (toolCallId : Option String)
      (name : String) (input : Option String)
  | toolEnd (tool_call_id : Option String) (toolCallId : Option String)
      (name : String) (output : String)
  | modelToken (payload : TokenPayload)
  | otherEvent
deriving DecidableEq

/-- JS `a || b` for `a : string | undefined`: `b` is used when `a` is
absent or the empty string (both falsy). -/
def orFalsy (v : Option String) (fallback : String) : String :=
  match v with
  | some s => if s = "" then fallback else s
  | none => fallback

/-- `dataAny?.input ?? \x7b\x7d` on an `on_tool_start` event. -/
def argsOf (input : Option String) : ArgsVal :=
  match input with
  | some s => .inputVal s
  | none => .emptyObj

/-- The chunks emitted for one upstream event (`now` is the value
`Date.now()` would return while this event is handled).  Mirrors the
three `if` blocks in the `for await` loop of `streamAgentResponse`:

* `on_tool_start` → one `tool_call` chunk, `status := running`, id from
  `tool_call_id || toolCallId || Date.now().toString()`;
* `on_tool_end` → one `tool_result` chunk, `status := completed`,
  `args := \x7b\x7d`, id from `tool_call_id || toolCallId || ''`;
* `on_chat_model_stream` → a `content` chunk only when the payload is a
  non-empty string (`content && typeof content === 'string'`);
* anything else → no chunk. -/
def translateEvent (now : Nat) : UpEvent → List Chunk
  | .toolStart id1 id2 name input =>
      [Chunk.toolCall
        { id := orFalsy id1 (orFalsy id2 (Nat.repr now)), name := name,
          args := argsOf input, result := none, status := .running }]
  | .toolEnd id1 id2 name output =>
      [Chunk.toolResult
        { id := orFalsy id1 (orFalsy id2 ""), name := name,
          args := .emptyObj, result := some output, status := .completed }]
  | .modelToken (.strPayload s) =>
      if s = "" then [] else [Chunk.content s]
  | .modelToken .nonStringPayload => []
  | .otherEvent => []

/-- The terminal chunk: `done` on normal exhaustion, `error` carrying the
failure message when an exception was raised while consuming. -/
def terminalChunk : Option String → Chunk
  | none => .done
  | some msg => .errorChunk msg

/-- `streamAgentResponse`, as the sequence of chunks it yields.  `events`
are the upstream events consumed before the stream ended (each paired
with the `Date.now()` value observed while handling it); `failure` is
`some msg` when an exception with message `msg` was raised while
consuming (ending consumption), `none` on normal exhaustion. -/
def streamAgentResponse (events : List (Nat × UpEvent)) (failure : Option String) :
    List Chunk :=
  (events.flatMap fun te => translateEvent te.1 te.2) ++ [terminalChunk failure]

/-! ### Provider selection: `createChatModel` (agent.ts, types.ts)

Client construction details that are irrelevant to provider selection
(instance-name extraction from the endpoint URL, numeric defaults for
temperature) are abstracted by letting each client carry the
configuration it was built from. -/

/-- `AzureOpenAIConfig` (types.ts). -/
structure AzureOpenAIConfig where
  model : String
  apiKey : String
  endpoint : String
  deploymentName : String
  apiVersion : Option String
deriving DecidableEq

/-- `GeminiConfig` (types.ts). -/
structure GeminiConfig where
  model : String
  apiKey : String
deriving DecidableEq

/-- `OllamaConfig` (types.ts, declared "for future use"). -/
structure OllamaConfig where
  baseUrl : Option String
  model : String
deriving DecidableEq

/-- The tagged union `ProviderConfig = AzureOpenAIConfig | GeminiConfig |
OllamaConfig`, discriminated on its `provider` field. -/
inductive ProviderConfig where
  | azureOpenAI (c : AzureOpenAIConfig)
  | gemini (c : GeminiConfig)
  | ollama (c : OllamaConfig)
deriving DecidableEq

/-- The `provider` discriminant string of a config. -/
def providerTag : ProviderConfig → String
  | .azureOpenAI _ => "azure-openai"
  | .gemini _ => "gemini"
  | .ollama _ => "ollama"

/-- A constructed chat client (`AzureChatOpenAI` / `ChatGoogleGenerativeAI`),
carrying the configuration it was constructed from. -/
inductive ChatModelClient where
  | azureChatOpenAI (c : AzureOpenAIConfig)
  | chatGoogleGenerativeAI (c : GeminiConfig)
deriving DecidableEq

/-- `createChatModel`: the `switch (config.provider)` of agent.ts.  The
`default` branch throws `Unsupported provider: $\x7bconfig.provider\x7d`,
modeled as `Except.error`. -/
def createChatModel : ProviderConfig → Except String ChatModelClient
  | .azureOpenAI c => .ok (.azureChatOpenAI c)
  | .gemini c => .ok (.chatGoogleGenerativeAI c)
  | .ollama c => .error ("Unsupported provider: " ++ providerTag (.ollama c))

/-! ### Result rows and the `execute_cypher` tool (tools factory) -/

/-- One backend result row as the formatter sees it: either a positional
array (rendered by `row.join(', ')`, so its cells are carried already
stringified) or a keyed object (rendered by `JSON.stringify(row)`,
carried as that rendering). -/
inductive QueryRow where
  | arr (vals : List String)
  | obj (json : String)
deriving DecidableEq

/-- Rendering of one row: `row.join(', ')` for arrays, `JSON.stringify`
for objects. -/
def renderRow : QueryRow → String
  | .arr vals => String.intercalate ", " vals
  | .obj json => json

/-- `.map((row, i) => ...)` over the sliced rows: 1-indexed display lines,
`i` being the index within the slice. -/
def numberLines : Nat → List QueryRow → List String
  | _, [] => []
  | i, r :: rs => ("[" ++ Nat.repr i ++ "] " ++ renderRow r) :: numberLines (i + 1) rs

/-- The displayed lines: `results.slice(0, 50).map((row, i) => ...)`. -/
def renderLines (results : List QueryRow) : List String :=
  numberLines 1 (results.take 50)

/-- The truncation summary appended when more than 50 rows came back. -/
def truncNote (n : Nat) : String :=
  if 50 < n then "\n... (" ++ Nat.repr (n - 50) ++ " more results truncated)" else ""

/-- The success-path formatting shared by `execute_cypher` and
`execute_vector_cypher`: the no-results sentinel for an empty row set,
otherwise the header plus at most 50 numbered lines plus the truncation
note. -/
def formatResults (results : List QueryRow) : String :=
  if results.length = 0 then "Query returned no results."
  else
    "Query returned " ++ Nat.repr results.length ++ " results:\n" ++
      String.intercalate "\n" (renderLines results) ++ truncNote results.length

/-- The `execute_cypher` tool body.  `queryOutcome` is the outcome of the
awaited `executeQuery(query)` call: thrown errors are caught and rendered
as the syntax-hint message. -/
def executeCypherTool (queryOutcome : Except String (List QueryRow)) : String :=
  match queryOutcome with
  | .error msg =>
      "Cypher query error: " ++ msg ++
        "\n\nPlease check your query syntax and try again."
  | .ok results => formatResults results

/-! ### The `\x7b\x7bQUERY_VECTOR\x7d\x7d` placeholder protocol
(`execute_vector_cypher`) -/

/-- The characters `\x7b\x7b` opening the placeholder. -/
def dblOpen : List Char := ['\x7b', '\x7b']

/-- The characters of the placeholder word `QUERY_VECTOR`. -/
def qvWord : List Char := ['Q', 'U', 'E', 'R', 'Y', '_', 'V', 'E', 'C', 'T', 'O', 'R']

/-- The characters `\x7d\x7d` closing the placeholder. -/
def dblClose : List Char := ['\x7d', '\x7d']

/-- The exact placeholder token `\x7b\x7bQUERY_VECTOR\x7d\x7d`. -/
def queryVecTok : List Char := dblOpen ++ qvWord ++ dblClose

/-- Strip `pat` from the front of `l`, returning the remainder on match. -/
def stripPre : List Char → List Char → Option (List Char)
  | [], l => some l
  | _ :: _, [] => none
  | p :: ps, c :: cs => if c = p then stripPre ps cs else none

/-- Does `l` start with the exact placeholder token? -/
def startsWithTok (l : List Char) : Bool :=
  (stripPre queryVecTok l).isSome

/-- `cypher.includes('\x7b\x7bQUERY_VECTOR\x7d\x7d')`: exact substring search. -/
def hasQueryVectorTok : List Char → Bool
  | [] => false
  | c :: cs => startsWithTok (c :: cs) || hasQueryVectorTok cs

/-- The precondition check of `execute_vector_cypher` on the template. -/
def containsPlaceholder (cypher : String) : Bool :=
  hasQueryVectorTok cypher.data

/-- The regex class `\s` used inside the replacement pattern
`/\x7b\x7b\s*QUERY_VECTOR\s*\x7d\x7d/g`. -/
def isJsWs (c : Char) : Bool := c.isWhitespace

/-- Match the replacement pattern `\x7b\x7b\s*QUERY_VECTOR\s*\x7d\x7d` at the head of
`l`, returning the input following the match. -/
def matchPlaceholderWs (l : List Char) : Option (List Char) :=
  match stripPre dblOpen l with
  | none => none
  | some l1 =>
    match stripPre qvWord (l1.dropWhile isJsWs) with
    | none => none
    | some l2 =>
      match stripPre dblClose (l2.dropWhile isJsWs) with
      | none => none
      | some l3 => some l3

/-- Global leftmost non-overlapping replacement of the placeholder
pattern by `repl` (the semantics of `String.prototype.replace` with a
global regex; the replacement text is not rescanned).  Structural fuel
(one unit per consumed position) keeps the definition executable. -/
def replLoop (repl : List Char) : Nat → List Char → List Char
  | 0, l => l
  | _ + 1, [] => []
  | fuel + 1, c :: cs =>
    match matchPlaceholderWs (c :: cs) with
    | some rest => repl ++ replLoop repl fuel rest
    | none => c :: replLoop repl fuel cs

/-- `cypher.replace(/\x7b\x7b\s*QUERY_VECTOR\s*\x7d\x7d/g, repl)`. -/
def replaceQueryVector (cypher repl : String) : String :=
  String.mk (replLoop repl.data cypher.data.length cypher.data)

/-- The injected literal:
`CAST([$\x7bqueryVec.join(',')\x7d] AS FLOAT[384])` — note the hard-coded
`384`, independent of the vector's length. -/
def vecLiteral (vec : List Int) : String :=
  "CAST([" ++ String.intercalate "," (vec.map (fun v => toString v)) ++ "] AS FLOAT[384])"

/-- A string made of `segs` separated by `sep`: the canonical shape of a
template containing exactly `segs.length - 1` occurrences of `sep`. -/
def interTok (sep : List Char) : List (List Char) → List Char
  | [] => []
  | [s] => s
  | s :: rest => s ++ sep ++ interTok sep rest

/-! ### The `execute_vector_cypher` tool body -/

/-- An error thrown by `initEmbedder`: either the distinguished
`WebGPUNotAvailableError` or any other failure. -/
inductive InitErr where
  | webGPUNotAvailable (msg : String)
  | otherInitError (msg : String)
deriving DecidableEq

/-- The `.message` of an init error. -/
def initErrMessage : InitErr → String
  | .webGPUNotAvailable m => m
  | .otherInitError m => m

/-- The embedder-readiness block of `execute_vector_cypher`: when the
embedder is not ready, call `initEmbedder()`; if that throws
`WebGPUNotAvailableError`, call `initEmbedder(undefined, \x7b\x7d, 'wasm')`
once; re-raise any other error.  Returns the ordered list of backends
passed to `initEmbedder` (`none` = default/primary, `some "wasm"` = the
fallback), and on failure also the error that escaped the block. -/
def ensureEmbedder (embedderReady : Bool)
    (initPrimary initFallback : Except InitErr Unit) :
    Except (InitErr × List (Option String)) (List (Option String)) :=
  if embedderReady then .ok []
  else
    match initPrimary with
    | .ok _ => .ok [none]
    | .error (.webGPUNotAvailable _) =>
      (match initFallback with
       | .ok _ => .ok [none, some "wasm"]
       | .error e => .error (e, [none, some "wasm"]))
    | .error e => .error (e, [none])

/-- The catch-all rendering of `execute_vector_cypher`. -/
def vectorErrorText (msg : String) : String :=
  "Vector Cypher error: " ++ msg ++
    "\n\nTip: Ensure you\x27re querying the vector index on CodeEmbedding and JOINing back to CodeNode via emb.nodeId."

/-- The observable outcome of one `execute_vector_cypher` call: the
returned string, how many times `embedText` ran, which backends
`initEmbedder` was called with (in order), and the final Cypher text
passed to `executeQuery` (if reached). -/
structure VectorToolRun where
  output : String
  embedCalls : Nat
  initBackendCalls : List (Option String)
  executedCypher : Option String
deriving DecidableEq

/-- The `execute_vector_cypher` tool body.  External capabilities appear
as outcome parameters: `embeddingReady` is `isEmbeddingReady()`,
`embedderReady` is `isEmbedderReady()`, `initPrimary`/`initFallback` the
outcomes of the two possible `initEmbedder` calls, `vec` the embedding of
the natural-language `query`, and `queryOutcome` the outcome of
`executeQuery(finalCypher)`. -/
def executeVectorCypherTool (embeddingReady embedderReady : Bool)
    (initPrimary initFallback : Except InitErr Unit)
    (vec : List Int) (queryOutcome : Except String (List QueryRow))
    (cypher : String) : VectorToolRun :=
  if embeddingReady = false then
    { output := "Vector Cypher is not available. Embeddings have not been generated yet.",
      embedCalls := 0, initBackendCalls := [], executedCypher := none }
  else if containsPlaceholder cypher = false then
    { output := "Invalid input: your Cypher must include the placeholder \x27\x7b\x7bQUERY_VECTOR\x7d\x7d\x27 where a FLOAT[384] vector should go.",
      embedCalls := 0, initBackendCalls := [], executedCypher := none }
  else
    match ensureEmbedder embedderReady initPrimary initFallback with
    | .error (e, calls) =>
      { output := vectorErrorText (initErrMessage e),
        embedCalls := 0, initBackendCalls := calls, executedCypher := none }
    | .ok calls =>
      let finalCypher := replaceQueryVector cypher (vecLiteral vec)
      match queryOutcome with
      | .error msg =>
        { output := vectorErrorText msg,
          embedCalls := 1, initBackendCalls := calls, executedCypher := some finalCypher }
      | .ok results =>
        { output := formatResults results,
          embedCalls := 1, initBackendCalls := calls, executedCypher := some finalCypher }

/-! ### `semantic_search_with_context`: grouping of the flattened relation -/

/-- A JS value in a result row cell: a string, a number (modeled as an
integer; only its identity matters to grouping), or `null`. -/
inductive JVal where
  | str (s : String)
  | num (n : Int)
  | nullv
deriving DecidableEq

/-- One flattened row of `semanticSearchWithContext` as the tool reads
it.  A keyed row populates the named fields (`positional := []`, since
`r[i]` is then absent); a positional row leaves the named fields `none`
and populates `positional`.  `some .nullv` is a field present with value
`null` (which, like absence, sends `??` to its fallback). -/
structure CtxRow where
  matchId : Option JVal
  matchName : Option JVal
  matchLabel : Option JVal
  matchPath : Option JVal
  distance : Option JVal
  connectedName : Option JVal
  connectedLabel : Option JVal
  relationType : Option JVal
  positional : List JVal
deriving DecidableEq

/-- JS `??` sees `null` and `undefined` alike. -/
def denull : Option JVal → Option JVal
  | some .nullv => none
  | v => v

/-- The name-first / positional-fallback field read `r.f ?? r[i]`. -/
def jfield (named : Option JVal) (pos : List JVal) (i : Nat) : Option JVal :=
  match denull named with
  | some v => some v
  | none => pos.get? i

/-- The grouping key: `r.matchId ?? r[0]`. -/
def rowKey (r : CtxRow) : Option JVal :=
  jfield r.matchId r.positional 0

/-- One connection record pushed onto a group. -/
structure ConnInfo where
  name : Option JVal
  label : Option JVal
  relType : Option JVal
deriving DecidableEq

/-- The per-match accumulator value stored in the `grouped` map. -/
structure MatchGroup where
  matchName : Option JVal
  matchLabel : Option JVal
  matchPath : Option JVal
  distance : Option JVal
  connections : List ConnInfo
deriving DecidableEq

/-- The connection extracted from a row:
`\x7b name: connectedName, label: connectedLabel, relType: relationType \x7d`. -/
def rowConn (r : CtxRow) : ConnInfo :=
  { name := jfield r.connectedName r.positional 6,
    label := jfield r.connectedLabel r.positional 7,
    relType := jfield r.relationType r.positional 8 }

/-- Update applied to an existing map entry when a row with key `k`
arrives: push the row's connection onto that entry's group. -/
def pushConn (k : Option JVal) (conn : ConnInfo)
    (p : Option JVal × MatchGroup) : Option JVal × MatchGroup :=
  if p.1 == k then (p.1, { p.2 with connections := p.2.connections ++ [conn] }) else p

/-- One iteration of the `for (const r of results)` grouping loop: create
the entry on first sight of the key (JS `Map` preserves insertion order,
modeled by appending), then push the row's connection. -/
def insertRow (acc : List (Option JVal × MatchGroup)) (r : CtxRow) :
    List (Option JVal × MatchGroup) :=
  if acc.any (fun p => p.1 == rowKey r) then
    acc.map (pushConn (rowKey r) (rowConn r))
  else
    acc ++ [(rowKey r,
      { matchName := jfield r.matchName r.positional 1,
        matchLabel := jfield r.matchLabel r.positional 2,
        matchPath := jfield r.matchPath r.positional 3,
        distance := jfield r.distance r.positional 4,
        connections := [rowConn r] })]

/-- The whole grouping pass: the `grouped` map, as its insertion-ordered
entry list. -/
def groupRows (results : List CtxRow) : List (Option JVal × MatchGroup) :=
  results.foldl insertRow []

/-- The connections a group displays: `g.connections.slice(0, 15)`. -/
def connectionsShown (g : MatchGroup) : List ConnInfo :=
  g.connections.take 15

/-- The `... and N more` suffix appended when a group has more than 15
connections. -/
def moreNote (g : MatchGroup) : String :=
  if 15 < g.connections.length then
    "\n      ... and " ++ Nat.repr (g.connections.length - 15) ++ " more"
  else ""

/-- One step of first-seen-order key deduplication. -/
def seenStep (acc : List (Option JVal)) (k : Option JVal) : List (Option JVal) :=
  if k ∈ acc then acc else acc ++ [k]

/-- The distinct keys of a key sequence, in first-seen order. -/
def firstSeenKeys (ks : List (Option JVal)) : List (Option JVal) :=
  ks.foldl seenStep []

/-- The connection count recorded for key `k` (0 when `k` has no group). -/
def lookupConnCount (gs : List (Option JVal × MatchGroup)) (k : Option JVal) : Nat :=
  match gs.find? (fun p => p.1 == k) with
  | some p => p.2.connections.length
  | none => 0

/-- Scenario rows for the two-`"A"`s-one-`"B"` grouping scenario: a keyed
row for match `"A"` connected to `"x"`. -/
def demoRowA1 : CtxRow :=
  { matchId := some (.str "A"), matchName := some (.str "alpha"),
    matchLabel := some (.str "Function"), matchPath := some (.str "a.ts"),
    distance := some (.num 0), connectedName := some (.str "x"),
    connectedLabel := some (.str "Function"), relationType := some (.str "CALLS"),
    positional := [] }

/-- Second row for match `"A"`, connected to `"y"`. -/
def demoRowA2 : CtxRow :=
  { demoRowA1 with connectedName := some (.str "y") }

/-- Row for match `"B"`, connected to `"z"`. -/
def demoRowB : CtxRow :=
  { matchId := some (.str "B"), matchName := some (.str "beta"),
    matchLabel := some (.str "Class"), matchPath := some (.str "b.ts"),
    distance := some (.num 0), connectedName := some (.str "z"),
    connectedLabel := some (.str "File"), relationType := some (.str "IMPORTS"),
    positional := [] }

/-- The scenario relation: two rows for `"A"`, then one for `"B"`. -/
def demoCtxRows : List CtxRow := [demoRowA1, demoRowA2, demoRowB]

/-! ### `get_code_content`: the node-id query construction -/

/-- `nodeId.replace(/\x27/g, "\x27\x27")` on the character list: every single
quote becomes two single quotes. -/
def escQuotes : List Char → List Char
  | [] => []
  | c :: cs => if c = '\x27' then '\x27' :: '\x27' :: escQuotes cs else c :: escQuotes cs

/-- `nodeId.replace(/\x27/g, "\x27\x27")`. -/
def escapeSingleQuotes (s : String) : String :=
  String.mk (escQuotes s.data)

/-- The fixed query text before the interpolated node id. -/
def codeContentQueryPre : String := "MATCH (n:CodeNode \x7bid: \x27"

/-- The fixed query text after the interpolated node id. -/
def codeContentQueryPost : String :=
  "\x27\x7d) \n           RETURN n.name AS name, n.label AS label, n.filePath AS filePath, \n                  n.content AS content, n.startLine AS startLine, n.endLine AS endLine"

/-- The query string `get_code_content` passes to `executeQuery`. -/
def getCodeContentQuery (nodeId : String) : String :=
  codeContentQueryPre ++ escapeSingleQuotes nodeId ++ codeContentQueryPost

/-- Every maximal run of single quotes in `l` has even length (so no
quote in `l` can terminate a single-quoted literal it sits in). -/
def quoteRunsEven : List Char → Bool
  | [] => true
  | c :: cs =>
    if c = '\x27' then
      match cs with
      | [] => false
      | c2 :: cs2 => if c2 = '\x27' then quoteRunsEven cs2 else false
    else quoteRunsEven cs

/-! ## Helper lemmas -/

theorem toDigitsCore_len (b : Nat) :
    ∀ fuel n ds, ds.length ≤ (Nat.toDigitsCore b fuel n ds).length := by
  intro fuel
  induction fuel with
  | zero => intro n ds; simp [Nat.toDigitsCore]
  | succ f ih =>
    intro n ds
    simp only [Nat.toDigitsCore]
    by_cases h : n / b = 0
    · simp [h]
    · simp only [if_neg h]
      calc ds.length ≤ (Nat.digitChar (n % b) :: ds).length := by simp
        _ ≤ _ := ih _ _

theorem toDigitsCore_len_succ (b f n : Nat) (ds : List Char) :
    ds.length + 1 ≤ (Nat.toDigitsCore b (f + 1) n ds).length := by
  simp only [Nat.toDigitsCore]
  by_cases h : n / b = 0
  · simp [h]
  · simp only [if_neg h]
    calc ds.length + 1 = (Nat.digitChar (n % b) :: ds).length := by simp
      _ ≤ _ := toDigitsCore_len b f _ _

/-- The decimal rendering of a natural number is never the empty string
(so a `Date.now().toString()` fallback id is non-empty). -/
theorem repr_ne_empty (n : Nat) : Nat.repr n ≠ "" := by
  intro h
  have h2 : Nat.toDigits 10 n = [] := by
    have := congrArg String.data h
    simpa [Nat.repr, List.asString] using this
  have h4 := toDigitsCore_len_succ 10 n n []
  rw [show Nat.toDigitsCore 10 (n + 1) n [] = Nat.toDigits 10 n from rfl, h2] at h4
  simp at h4

/-- No chunk produced for an upstream event is terminal. -/
theorem translateEvent_not_terminal (now : Nat) (e : UpEvent) :
    ∀ c ∈ translateEvent now e, isTerminal c = false := by
  intro c hc
  cases e with
  | toolStart id1 id2 name input => simp [translateEvent] at hc; simp [hc, isTerminal]
  | toolEnd id1 id2 name output => simp [translateEvent] at hc; simp [hc, isTerminal]
  | modelToken p =>
    cases p with
    | strPayload s =>
      by_cases hs : s = ""
      · simp [translateEvent, hs] at hc
      · simp [translateEvent, hs] at hc; simp [hc, isTerminal]
    | nonStringPayload => simp [translateEvent] at hc
  | otherEvent => simp [translateEvent] at hc

/-- The chunks translated from the consumed events contain no terminal
chunk. -/
theorem flatMap_translate_no_terminal (events : List (Nat × UpEvent)) :
    (events.flatMap fun te => translateEvent te.1 te.2).countP isTerminal = 0 := by
  rw [List.countP_eq_zero]
  intro c hc
  rw [List.mem_flatMap] at hc
  obtain ⟨te, -, hmem⟩ := hc
  simpa using translateEvent_not_terminal te.1 te.2 c hmem

/-- The terminal chunk for each ending is terminal. -/
theorem isTerminal_terminalChunk (failure : Option String) :
    isTerminal (terminalChunk failure) = true := by
  cases failure <;> rfl

/-! ## Claim theorems -/

/-- Claim C1: for every interleaving of upstream tool-start, tool-end and
model-token events, `streamAgentResponse` emits chunks in the exact
arrival order of the underlying events (the output is the in-order
concatenation of each event's chunks) and terminates with exactly one
terminal chunk as the last element — `done` on normal exhaustion, `error`
carrying the failure's message when an exception was raised while
consuming; no chunk follows the terminal one and no other chunk is
terminal. -/
theorem agent_stream_order_and_single_terminal
    (events : List (Nat × UpEvent)) (failure : Option String) :
    streamAgentResponse events failure =
      (events.flatMap fun te => translateEvent te.1 te.2) ++ [terminalChunk failure] ∧
    (events.flatMap fun te => translateEvent te.1 te.2).countP isTerminal = 0 ∧
    (streamAgentResponse events failure).countP isTerminal = 1 ∧
    (streamAgentResponse events failure).getLast? = some (terminalChunk failure) ∧
    terminalChunk none = Chunk.done ∧
    (∀ msg, terminalChunk (some msg) = Chunk.errorChunk msg) := by
  refine ⟨rfl, flatMap_translate_no_terminal events, ?_, ?_, rfl, fun msg => rfl⟩
  · rw [streamAgentResponse, List.countP_append, flatMap_translate_no_terminal events]
    simp [isTerminal_terminalChunk]
  · rw [streamAgentResponse]
    exact List.getLast?_concat _

/-- Claim C8 (counterexample): an upstream tool-finished event lacking a
stable id yields an emitted `tool_result` chunk whose id is the empty
string, contradicting the claim that no emitted chunk carries an empty
id. -/
theorem agent_stream_toolEnd_empty_id_cex :
    Chunk.toolResult
        { id := "", name := "calc", args := .emptyObj,
          result := some "42", status := .completed }
      ∈ streamAgentResponse [(123, UpEvent.toolEnd none none "calc" "42")] none := by
  decide

/-- Claim C8 (amended): only upstream tool-start events lacking a stable
id receive the synthesized non-empty `Date.now().toString()` fallback id;
a tool-finished event lacking a stable id is emitted with the empty
string as its id. -/
theorem translateEvent_fallback_id (now : Nat) (id1 id2 : Option String)
    (name : String) (input : Option String) (output : String)
    (h1 : id1 = none ∨ id1 = some "") (h2 : id2 = none ∨ id2 = some "") :
    translateEvent now (.toolStart id1 id2 name input) =
      [Chunk.toolCall
        { id := Nat.repr now, name := name, args := argsOf input,
          result := none, status := .running }] ∧
    Nat.repr now ≠ "" ∧
    translateEvent now (.toolEnd id1 id2 name output) =
      [Chunk.toolResult
        { id := "", name := name, args := .emptyObj,
          result := some output, status := .completed }] := by
  have ha : ∀ fb : String, orFalsy id1 (orFalsy id2 fb) = fb := by
    intro fb
    rcases h1 with h1 | h1 <;> rcases h2 with h2 | h2 <;> simp [h1, h2, orFalsy]
  exact ⟨by simp [translateEvent, ha], repr_ne_empty now, by simp [translateEvent, ha]⟩

/-- Witness for C8's amended theorem at a concrete translator call. -/
theorem translateEvent_fallback_id_witness :
    translateEvent 1700000000000 (.toolStart none none "execute_cypher" none) =
      [Chunk.toolCall
        { id := Nat.repr 1700000000000, name := "execute_cypher", args := argsOf none,
          result := none, status := .running }] ∧
    Nat.repr 1700000000000 ≠ "" ∧
    translateEvent 1700000000000 (.toolEnd none none "execute_cypher" "ok") =
      [Chunk.toolResult
        { id := "", name := "execute_cypher", args := .emptyObj,
          result := some "ok", status := .completed }] :=
  translateEvent_fallback_id 1700000000000 none none "execute_cypher" none "ok"
    (Or.inl rfl) (Or.inl rfl)

/-- Claim C9: `createChatModel` is a pure mapping from the tagged
`ProviderConfig` union to a concrete client: it returns a client exactly
for the `azure-openai` and `gemini` tags, and fails with an
unsupported-provider error for every other tag — in particular for the
declared `ollama` tag. -/
theorem createChatModel_provider_mapping (c : ProviderConfig) :
    ((∃ m, createChatModel c = .ok m) ↔
      (providerTag c = "azure-openai" ∨ providerTag c = "gemini")) ∧
    (∀ oc : OllamaConfig,
      createChatModel (.ollama oc) = .error ("Unsupported provider: ollama")) ∧
    (∀ ac : AzureOpenAIConfig,
      createChatModel (.azureOpenAI ac) = .ok (.azureChatOpenAI ac)) ∧
    (∀ gc : GeminiConfig,
      createChatModel (.gemini gc) = .ok (.chatGoogleGenerativeAI gc)) := by
  refine ⟨?_, fun oc => rfl, fun ac => rfl, fun gc => rfl⟩
  cases c <;> simp [createChatModel, providerTag]

/-- Claim C5: when `executeQuery` returns the empty row set, the
`graph_query` tool's output is the fixed non-empty no-results sentinel
string (the output is a pure function of the row set, hence identical
across all such calls). -/
theorem graph_query_no_results_sentinel :
    executeCypherTool (.ok []) = "Query returned no results." ∧
    "Query returned no results." ≠ "" := by
  exact ⟨rfl, by decide⟩

/-- Numbering does not change the number of lines. -/
theorem numberLines_length (rs : List QueryRow) : ∀ j, (numberLines j rs).length = rs.length := by
  induction rs with
  | nil => intro j; rfl
  | cons r rs ih => intro j; simp [numberLines, ih]

/-- The `i`-th displayed line is the `i`-th row, labeled `j + i`. -/
theorem numberLines_get? (rs : List QueryRow) :
    ∀ j i, (numberLines j rs).get? i =
      (rs.get? i).map (fun r => "[" ++ Nat.repr (j + i) ++ "] " ++ renderRow r) := by
  induction rs with
  | nil => intro j i; simp [numberLines]
  | cons r rs ih =>
    intro j i
    cases i with
    | zero => simp [numberLines]
    | succ i =>
      have harith : j + 1 + i = j + (i + 1) := by omega
      rw [numberLines, List.get?_cons_succ, List.get?_cons_succ, ih (j + 1) i, harith]

/-- Claim C4: on a result set of `n` rows (`n ≤ 200`) the `execute_cypher`
rendering displays at most 50 rows, 1-indexed, a positional row rendered
as its values joined by `", "`, and appends the
`... (<m> more results truncated)` note with `m = n - 50` exactly when
`n > 50`. -/
theorem execute_cypher_truncation (results : List QueryRow)
    (h : results.length ≤ 200) :
    (renderLines results).length = min results.length 50 ∧
    (∀ i r, (results.take 50).get? i = some r →
      (renderLines results).get? i =
        some ("[" ++ Nat.repr (i + 1) ++ "] " ++ renderRow r)) ∧
    (∀ vals : List String, renderRow (.arr vals) = String.intercalate ", " vals) ∧
    (50 < results.length →
      truncNote results.length =
        "\n... (" ++ Nat.repr (results.length - 50) ++ " more results truncated)") ∧
    (results.length ≤ 50 → truncNote results.length = "") ∧
    (0 < results.length →
      executeCypherTool (.ok results) =
        "Query returned " ++ Nat.repr results.length ++ " results:\n" ++
          String.intercalate "\n" (renderLines results) ++ truncNote results.length) := by
  refine ⟨?_, ?_, fun vals => rfl, ?_, ?_, ?_⟩
  · rw [renderLines, numberLines_length, List.length_take, Nat.min_comm]
  · intro i r hr
    rw [renderLines, numberLines_get? (results.take 50) 1 i, hr]
    simp [Nat.add_comm]
  · intro h50
    simp [truncNote, h50]
  · intro h50
    simp [truncNote]
    omega
  · intro hpos
    simp [executeCypherTool, formatResults, Nat.pos_iff_ne_zero.mp hpos]

/-- Witness for C4 at a concrete 60-row result set. -/
theorem execute_cypher_truncation_witness :
    (renderLines (List.replicate 60 (QueryRow.arr ["x"]))).length =
      min (List.replicate 60 (QueryRow.arr ["x"])).length 50 ∧
    (∀ i r, ((List.replicate 60 (QueryRow.arr ["x"])).take 50).get? i = some r →
      (renderLines (List.replicate 60 (QueryRow.arr ["x"]))).get? i =
        some ("[" ++ Nat.repr (i + 1) ++ "] " ++ renderRow r)) ∧
    (∀ vals : List String, renderRow (.arr vals) = String.intercalate ", " vals) ∧
    (50 < (List.replicate 60 (QueryRow.arr ["x"])).length →
      truncNote (List.replicate 60 (QueryRow.arr ["x"])).length =
        "\n... (" ++ Nat.repr ((List.replicate 60 (QueryRow.arr ["x"])).length - 50) ++
          " more results truncated)") ∧
    ((List.replicate 60 (QueryRow.arr ["x"])).length ≤ 50 →
      truncNote (List.replicate 60 (QueryRow.arr ["x"])).length = "") ∧
    (0 < (List.replicate 60 (QueryRow.arr ["x"])).length →
      executeCypherTool (.ok (List.replicate 60 (QueryRow.arr ["x"]))) =
        "Query returned " ++ Nat.repr (List.replicate 60 (QueryRow.arr ["x"])).length ++
          " results:\n" ++
          String.intercalate "\n" (renderLines (List.replicate 60 (QueryRow.arr ["x"]))) ++
          truncNote (List.replicate 60 (QueryRow.arr ["x"])).length) :=
  execute_cypher_truncation (List.replicate 60 (QueryRow.arr ["x"])) (by decide)

/-- Escaping is exactly the per-character doubling of single quotes. -/
theorem escQuotes_flatMap (l : List Char) :
    escQuotes l = l.flatMap (fun c => if c = '\x27' then ['\x27', '\x27'] else [c]) := by
  induction l with
  | nil => rfl
  | cons c cs ih =>
    by_cases hc : c = '\x27' <;> simp [escQuotes, hc, ih]

/-- A maximal-run scan step over a non-quote character. -/
theorem quoteRunsEven_cons (c : Char) (l : List Char) (hc : c ≠ '\x27') :
    quoteRunsEven (c :: l) = quoteRunsEven l := by
  rw [quoteRunsEven.eq_def]
  simp [hc]

/-- A maximal-run scan step over a doubled quote. -/
theorem quoteRunsEven_two_quotes (l : List Char) :
    quoteRunsEven ('\x27' :: '\x27' :: l) = quoteRunsEven l := by
  rw [quoteRunsEven.eq_def]
  simp

/-- Every maximal quote run in the escaped text has even length. -/
theorem quoteRunsEven_escQuotes (l : List Char) :
    quoteRunsEven (escQuotes l) = true := by
  induction l with
  | nil => rfl
  | cons c cs ih =>
    by_cases hc : c = '\x27'
    · rw [show escQuotes (c :: cs) = '\x27' :: '\x27' :: escQuotes cs by simp [escQuotes, hc],
        quoteRunsEven_two_quotes]
      exact ih
    · rw [show escQuotes (c :: cs) = c :: escQuotes cs by simp [escQuotes, hc],
        quoteRunsEven_cons c _ hc]
      exact ih

/-- Escaping doubles the number of single quotes. -/
theorem count_escQuotes (l : List Char) :
    (escQuotes l).count '\x27' = 2 * l.count '\x27' := by
  induction l with
  | nil => rfl
  | cons c cs ih =>
    by_cases hc : c = '\x27' <;> simp [escQuotes, hc, List.count_cons, ih] <;> omega

/-- Escaping leaves every non-quote character untouched. -/
theorem filter_escQuotes (l : List Char) :
    (escQuotes l).filter (fun c => !(c == '\x27')) =
      l.filter (fun c => !(c == '\x27')) := by
  induction l with
  | nil => rfl
  | cons c cs ih =>
    by_cases hc : c = '\x27' <;> simp [escQuotes, hc, List.filter_cons, ih]

/-- Claim C10: `get_code_content` passes `executeQuery` a query in which
every single quote of `nodeId` is replaced by two single quotes, embedded
between a fixed prefix and suffix inside one single-quoted literal: the
escaped id has all quotes in even runs, doubles the quote count, and
preserves all other characters, and nothing outside the interpolated
segment depends on `nodeId`. -/
theorem get_code_content_query_escaping (nodeId : String) :
    getCodeContentQuery nodeId =
      codeContentQueryPre ++ escapeSingleQuotes nodeId ++ codeContentQueryPost ∧
    (escapeSingleQuotes nodeId).data =
      nodeId.data.flatMap (fun c => if c = '\x27' then ['\x27', '\x27'] else [c]) ∧
    quoteRunsEven (escapeSingleQuotes nodeId).data = true ∧
    (escapeSingleQuotes nodeId).data.count '\x27' = 2 * nodeId.data.count '\x27' ∧
    (escapeSingleQuotes nodeId).data.filter (fun c => !(c == '\x27')) =
      nodeId.data.filter (fun c => !(c == '\x27')) :=
  ⟨rfl, escQuotes_flatMap nodeId.data, quoteRunsEven_escQuotes nodeId.data,
    count_escQuotes nodeId.data, filter_escQuotes nodeId.data⟩

/-- Claim C3: on a template without the `\x7b\x7bQUERY_VECTOR\x7d\x7d`
placeholder, `execute_vector_cypher` returns the explanatory
invalid-input message (given embedding readiness) and — for any readiness
state — never calls `embedText` and never initializes the embedder: the
placeholder check runs before the whole embedding block. -/
theorem vector_cypher_missing_placeholder (embedderReady : Bool)
    (initPrimary initFallback : Except InitErr Unit) (vec : List Int)
    (queryOutcome : Except String (List QueryRow)) (cypher : String)
    (h : containsPlaceholder cypher = false) :
    (executeVectorCypherTool true embedderReady initPrimary initFallback
        vec queryOutcome cypher).output =
      "Invalid input: your Cypher must include the placeholder \x27\x7b\x7bQUERY_VECTOR\x7d\x7d\x27 where a FLOAT[384] vector should go." ∧
    (∀ embeddingReady : Bool,
      (executeVectorCypherTool embeddingReady embedderReady initPrimary initFallback
          vec queryOutcome cypher).embedCalls = 0 ∧
      (executeVectorCypherTool embeddingReady embedderReady initPrimary initFallback
          vec queryOutcome cypher).initBackendCalls = [] ∧
      (executeVectorCypherTool embeddingReady embedderReady initPrimary initFallback
          vec queryOutcome cypher).executedCypher = none) := by
  constructor
  · simp [executeVectorCypherTool, h]
  · intro embeddingReady
    cases embeddingReady <;> simp [executeVectorCypherTool, h]

/-- Witness for C3 at a concrete placeholder-free template. -/
theorem vector_cypher_missing_placeholder_witness :
    (executeVectorCypherTool true false (.ok ()) (.ok ())
        [1, 2] (.ok []) "MATCH (n:CodeNode) RETURN n.name").output =
      "Invalid input: your Cypher must include the placeholder \x27\x7b\x7bQUERY_VECTOR\x7d\x7d\x27 where a FLOAT[384] vector should go." ∧
    (∀ embeddingReady : Bool,
      (executeVectorCypherTool embeddingReady false (.ok ()) (.ok ())
          [1, 2] (.ok []) "MATCH (n:CodeNode) RETURN n.name").embedCalls = 0 ∧
      (executeVectorCypherTool embeddingReady false (.ok ()) (.ok ())
          [1, 2] (.ok []) "MATCH (n:CodeNode) RETURN n.name").initBackendCalls = [] ∧
      (executeVectorCypherTool embeddingReady false (.ok ()) (.ok ())
          [1, 2] (.ok []) "MATCH (n:CodeNode) RETURN n.name").executedCypher = none) :=
  vector_cypher_missing_placeholder false (.ok ()) (.ok ()) [1, 2] (.ok [])
    "MATCH (n:CodeNode) RETURN n.name" (by decide)

/-- Claim C7: with the embedder not yet initialized,
`execute_vector_cypher` makes one primary `initEmbedder` call; it falls
back to the `'wasm'` backend exactly when the primary call fails with
`WebGPUNotAvailableError`, any other initialization error is re-raised
without a fallback attempt, and in every case at most one fallback call
is made. -/
theorem vector_cypher_init_fallback (embedderReady : Bool)
    (initPrimary initFallback : Except InitErr Unit) (vec : List Int)
    (queryOutcome : Except String (List QueryRow)) (cypher : String)
    (h : containsPlaceholder cypher = true) :
    (embedderReady = true →
      (executeVectorCypherTool true embedderReady initPrimary initFallback
          vec queryOutcome cypher).initBackendCalls = []) ∧
    (embedderReady = false → initPrimary = .ok () →
      (executeVectorCypherTool true embedderReady initPrimary initFallback
          vec queryOutcome cypher).initBackendCalls = [none]) ∧
    (∀ m, embedderReady = false → initPrimary = .error (.webGPUNotAvailable m) →
      (executeVectorCypherTool true embedderReady initPrimary initFallback
          vec queryOutcome cypher).initBackendCalls = [none, some "wasm"]) ∧
    (∀ m, embedderReady = false → initPrimary = .error (.otherInitError m) →
      (executeVectorCypherTool true embedderReady initPrimary initFallback
          vec queryOutcome cypher).initBackendCalls = [none] ∧
      (executeVectorCypherTool true embedderReady initPrimary initFallback
          vec queryOutcome cypher).embedCalls = 0 ∧
      (executeVectorCypherTool true embedderReady initPrimary initFallback
          vec queryOutcome cypher).output = vectorErrorText m) ∧
    ((executeVectorCypherTool true embedderReady initPrimary initFallback
        vec queryOutcome cypher).initBackendCalls.countP
      (fun b => b == some "wasm") ≤ 1) := by
  refine ⟨?_, ?_, ?_, ?_, ?_⟩
  · intro he
    cases queryOutcome <;> simp [executeVectorCypherTool, h, ensureEmbedder, he]
  · intro he hp
    cases queryOutcome <;> simp [executeVectorCypherTool, h, ensureEmbedder, he, hp]
  · intro m he hp
    cases initFallback <;> cases queryOutcome <;>
      simp [executeVectorCypherTool, h, ensureEmbedder, he, hp]
  · intro m he hp
    cases queryOutcome <;>
      simp [executeVectorCypherTool, h, ensureEmbedder, he, hp, initErrMessage]
  · cases embedderReady with
    | true =>
      cases queryOutcome <;> simp [executeVectorCypherTool, h, ensureEmbedder]
    | false =>
      match initPrimary with
      | .ok () =>
        cases queryOutcome <;> simp [executeVectorCypherTool, h, ensureEmbedder]
      | .error (.webGPUNotAvailable m) =>
        cases initFallback <;> cases queryOutcome <;>
          simp [executeVectorCypherTool, h, ensureEmbedder]
      | .error (.otherInitError m) =>
        cases queryOutcome <;> simp [executeVectorCypherTool, h, ensureEmbedder]

/-- Witness for C7 at a concrete WebGPU-unavailable primary failure. -/
theorem vector_cypher_init_fallback_witness :
    (false = true →
      (executeVectorCypherTool true false (.error (.webGPUNotAvailable "no WebGPU"))
          (.ok ()) [1] (.ok [])
          "CALL QUERY_VECTOR_INDEX(\x27CodeEmbedding\x27,\x27code_embedding_idx\x27, \x7b\x7bQUERY_VECTOR\x7d\x7d, 10) YIELD node AS emb, distance RETURN emb.nodeId").initBackendCalls = []) ∧
    (false = false →
      (Except.error (InitErr.webGPUNotAvailable "no WebGPU") : Except InitErr Unit) = .ok () →
      (executeVectorCypherTool true false (.error (.webGPUNotAvailable "no WebGPU"))
          (.ok ()) [1] (.ok [])
          "CALL QUERY_VECTOR_INDEX(\x27CodeEmbedding\x27,\x27code_embedding_idx\x27, \x7b\x7bQUERY_VECTOR\x7d\x7d, 10) YIELD node AS emb, distance RETURN emb.nodeId").initBackendCalls = [none]) ∧
    (∀ m, false = false →
      (Except.error (InitErr.webGPUNotAvailable "no WebGPU") : Except InitErr Unit) =
        .error (.webGPUNotAvailable m) →
      (executeVectorCypherTool true false (.error (.webGPUNotAvailable "no WebGPU"))
          (.ok ()) [1] (.ok [])
          "CALL QUERY_VECTOR_INDEX(\x27CodeEmbedding\x27,\x27code_embedding_idx\x27, \x7b\x7bQUERY_VECTOR\x7d\x7d, 10) YIELD node AS emb, distance RETURN emb.nodeId").initBackendCalls = [none, some "wasm"]) ∧
    (∀ m, false = false →
      (Except.error (InitErr.webGPUNotAvailable "no WebGPU") : Except InitErr Unit) =
        .error (.otherInitError m) →
      (executeVectorCypherTool true false (.error (.webGPUNotAvailable "no WebGPU"))
          (.ok ()) [1] (.ok [])
          "CALL QUERY_VECTOR_INDEX(\x27CodeEmbedding\x27,\x27code_embedding_idx\x27, \x7b\x7bQUERY_VECTOR\x7d\x7d, 10) YIELD node AS emb, distance RETURN emb.nodeId").initBackendCalls = [none] ∧
      (executeVectorCypherTool true false (.error (.webGPUNotAvailable "no WebGPU"))
          (.ok ()) [1] (.ok [])
          "CALL QUERY_VECTOR_INDEX(\x27CodeEmbedding\x27,\x27code_embedding_idx\x27, \x7b\x7bQUERY_VECTOR\x7d\x7d, 10) YIELD node AS emb, distance RETURN emb.nodeId").embedCalls = 0 ∧
      (executeVectorCypherTool true false (.error (.webGPUNotAvailable "no WebGPU"))
          (.ok ()) [1] (.ok [])
          "CALL QUERY_VECTOR_INDEX(\x27CodeEmbedding\x27,\x27code_embedding_idx\x27, \x7b\x7bQUERY_VECTOR\x7d\x7d, 10) YIELD node AS emb, distance RETURN emb.nodeId").output = vectorErrorText m) ∧
    ((executeVectorCypherTool true false (.error (.webGPUNotAvailable "no WebGPU"))
        (.ok ()) [1] (.ok [])
        "CALL QUERY_VECTOR_INDEX(\x27CodeEmbedding\x27,\x27code_embedding_idx\x27, \x7b\x7bQUERY_VECTOR\x7d\x7d, 10) YIELD node AS emb, distance RETURN emb.nodeId").initBackendCalls.countP
      (fun b => b == some "wasm") ≤ 1) :=
  vector_cypher_init_fallback false (.error (.webGPUNotAvailable "no WebGPU"))
    (.ok ()) [1] (.ok [])
    "CALL QUERY_VECTOR_INDEX(\x27CodeEmbedding\x27,\x27code_embedding_idx\x27, \x7b\x7bQUERY_VECTOR\x7d\x7d, 10) YIELD node AS emb, distance RETURN emb.nodeId"
    (by decide)

/-- Stripping a prefix removes exactly its length. -/
theorem stripPre_len : ∀ (p l r : List Char), stripPre p l = some r → r.length + p.length = l.length := by
  intro p
  induction p with
  | nil => intro l r h; simp [stripPre] at h; simp [h]
  | cons x xs ih =>
    intro l r h
    cases l with
    | nil => simp [stripPre] at h
    | cons c cs =>
      by_cases hc : c = x
      · simp [stripPre, hc] at h
        have := ih cs r h
        simp [List.length_cons]
        omega
      · simp [stripPre, hc] at h

/-- `dropWhile` never lengthens a list. -/
theorem dropWhile_le_length (p : Char → Bool) (l : List Char) :
    (l.dropWhile p).length ≤ l.length := by
  induction l with
  | nil => simp
  | cons c cs ih =>
    by_cases hc : p c = true <;> simp [List.dropWhile, hc] <;> omega

/-- A placeholder-pattern match consumes at least the 16 token characters. -/
theorem matchPlaceholderWs_len (l r : List Char) (h : matchPlaceholderWs l = some r) :
    r.length + 16 ≤ l.length := by
  rw [matchPlaceholderWs] at h
  cases h1 : stripPre dblOpen l with
  | none => rw [h1] at h; simp at h
  | some l1 =>
    rw [h1] at h
    dsimp only at h
    cases h2 : stripPre qvWord (l1.dropWhile isJsWs) with
    | none => rw [h2] at h; simp at h
    | some l2 =>
      rw [h2] at h
      dsimp only at h
      cases h3 : stripPre dblClose (l2.dropWhile isJsWs) with
      | none => rw [h3] at h; simp at h
      | some l3 =>
        rw [h3] at h
        simp at h
        subst h
        have e1 := stripPre_len dblOpen l l1 h1
        have e2 := stripPre_len qvWord (l1.dropWhile isJsWs) l2 h2
        have e3 := stripPre_len dblClose (l2.dropWhile isJsWs) l3 h3
        have d1 := dropWhile_le_length isJsWs l1
        have d2 := dropWhile_le_length isJsWs l2
        simp [dblOpen, qvWord, dblClose] at e1 e2 e3
        omega

/-- The replacement loop is the identity on the empty input. -/
theorem replLoop_nil (repl : List Char) : ∀ f, replLoop repl f [] = [] := by
  intro f
  cases f <;> rfl

/-- The replacement loop does not depend on the fuel once the fuel covers
the input length. -/
theorem replLoop_congr (repl : List Char) :
    ∀ f g l, l.length ≤ f → l.length ≤ g → replLoop repl f l = replLoop repl g l := by
  intro f
  induction f with
  | zero =>
    intro g l hf _
    have : l = [] := List.length_eq_zero.mp (Nat.le_zero.mp hf)
    subst this
    rw [replLoop_nil, replLoop_nil]
  | succ f ih =>
    intro g l hf hg
    cases l with
    | nil => rw [replLoop_nil, replLoop_nil]
    | cons c cs =>
      cases g with
      | zero => simp at hg
      | succ g =>
        simp only [replLoop]
        cases hm : matchPlaceholderWs (c :: cs) with
        | some rest =>
          have hlen := matchPlaceholderWs_len (c :: cs) rest hm
          simp at hf hg hlen
          dsimp only
          rw [ih g rest (by omega) (by omega)]
        | none =>
          simp at hf hg
          dsimp only
          rw [ih g cs (by omega) (by omega)]

/-- No replacement fires at a position that does not open a brace. -/
theorem replLoop_notOpen (repl : List Char) (f : Nat) (c : Char) (cs : List Char)
    (hc : c ≠ '\x7b') :
    replLoop repl (f + 1) (c :: cs) = c :: replLoop repl f cs := by
  have hm : matchPlaceholderWs (c :: cs) = none := by
    simp [matchPlaceholderWs, dblOpen, stripPre, hc]
  simp [replLoop, hm]

/-- The exact placeholder token at the head of the input is consumed and
replaced. -/
theorem replLoop_tok (repl rest : List Char) (f : Nat) :
    replLoop repl (f + 1) (queryVecTok ++ rest) = repl ++ replLoop repl f rest := by
  have hQ : isJsWs 'Q' = false := by decide
  have hB : isJsWs '\x7d' = false := by decide
  have hm : matchPlaceholderWs (queryVecTok ++ rest) = some rest := by
    simp [queryVecTok, dblOpen, qvWord, dblClose, matchPlaceholderWs, stripPre,
      List.dropWhile, hQ, hB]
  have hshape : queryVecTok ++ rest = '\x7b' :: ('\x7b' :: 'Q' :: 'U' :: 'E' :: 'R' :: 'Y' ::
      '_' :: 'V' :: 'E' :: 'C' :: 'T' :: 'O' :: 'R' :: '\x7d' :: '\x7d' :: rest) := by
    simp [queryVecTok, dblOpen, qvWord, dblClose]
  rw [hshape] at hm ⊢
  simp only [replLoop, hm]

/-- The loop copies a brace-free segment verbatim. -/
theorem replLoop_seg (repl : List Char) :
    ∀ (a : List Char) (f : Nat) (l : List Char), (∀ c ∈ a, c ≠ '\x7b') →
      replLoop repl (a.length + f) (a ++ l) = a ++ replLoop repl f l := by
  intro a
  induction a with
  | nil => intro f l _; simp
  | cons c cs ih =>
    intro f l hbr
    have hc : c ≠ '\x7b' := hbr c (by simp)
    have hlen : (c :: cs).length + f = cs.length + f + 1 := by
      simp [List.length_cons]
      omega
    rw [hlen, List.cons_append, replLoop_notOpen repl (cs.length + f) c (cs ++ l) hc,
      ih f l (fun x hx => hbr x (by simp [hx])), List.cons_append]

/-- Segmented form of the template: a cons-cons template splits at its
first placeholder occurrence. -/
theorem interTok_cons_cons (sep s s2 : List Char) (ss : List (List Char)) :
    interTok sep (s :: s2 :: ss) = s ++ sep ++ interTok sep (s2 :: ss) := by
  rfl

/-- Global replacement on a segmented template replaces every separator
occurrence: the placeholder-separated segments become replacement-separated
segments. -/
theorem replLoop_interTok (repl : List Char) :
    ∀ segs : List (List Char), segs ≠ [] → (∀ s ∈ segs, ∀ c ∈ s, c ≠ '\x7b') →
      replLoop repl (interTok queryVecTok segs).length (interTok queryVecTok segs) =
        interTok repl segs := by
  intro segs
  induction segs with
  | nil => intro h _; exact absurd rfl h
  | cons s rest ih =>
    intro _ hbr
    cases rest with
    | nil =>
      have hs : ∀ c ∈ s, c ≠ '\x7b' := hbr s (by simp)
      have h0 := replLoop_seg repl s 0 [] hs
      simpa [interTok, replLoop_nil] using h0
    | cons s2 ss =>
      have hs : ∀ c ∈ s, c ≠ '\x7b' := hbr s (by simp)
      have hrest : ∀ t ∈ s2 :: ss, ∀ c ∈ t, c ≠ '\x7b' := by
        intro t ht
        exact hbr t (by simp [ht])
      rw [interTok_cons_cons]
      set I := interTok queryVecTok (s2 :: ss) with hI
      have hlen : (s ++ queryVecTok ++ I).length = s.length + (16 + I.length) := by
        simp [queryVecTok, dblOpen, qvWord, dblClose]
        omega
      rw [hlen, List.append_assoc,
        replLoop_seg repl s (16 + I.length) (queryVecTok ++ I) hs]
      have h16 : (16 : Nat) + I.length = (15 + I.length) + 1 := by omega
      rw [h16, replLoop_tok repl I (15 + I.length),
        replLoop_congr repl (15 + I.length) I.length I (by omega) (by omega),
        ih (by simp) hrest, interTok_cons_cons]
      simp

/-- Stripping a list from in front of itself leaves the remainder. -/
theorem stripPre_self : ∀ (p l : List Char), stripPre p (p ++ l) = some l := by
  intro p
  induction p with
  | nil => intro l; simp [stripPre]
  | cons x xs ih => intro l; simp [stripPre, ih]

/-- Any string of the shape `a ++ token ++ b` passes the
`includes('\x7b\x7bQUERY_VECTOR\x7d\x7d')` check. -/
theorem hasQueryVectorTok_append :
    ∀ (a b : List Char), hasQueryVectorTok (a ++ (queryVecTok ++ b)) = true := by
  intro a
  induction a with
  | nil =>
    intro b
    have h1 : startsWithTok (queryVecTok ++ b) = true := by
      rw [startsWithTok, stripPre_self]
      rfl
    have hshape : queryVecTok ++ b = '\x7b' :: ('\x7b' :: 'Q' :: 'U' :: 'E' :: 'R' :: 'Y' ::
        '_' :: 'V' :: 'E' :: 'C' :: 'T' :: 'O' :: 'R' :: '\x7d' :: '\x7d' :: b) := by
      simp [queryVecTok, dblOpen, qvWord, dblClose]
    have hgoal : hasQueryVectorTok (queryVecTok ++ b) = true := by
      rw [hshape] at h1 ⊢
      simp [hasQueryVectorTok, h1]
    simpa using hgoal
  | cons c a ih =>
    intro b
    simp [hasQueryVectorTok, ih b]

/-- A template made of at least two placeholder-separated segments passes
the placeholder precondition. -/
theorem containsPlaceholder_of_segs (cypher : String) (s0 s1 : List Char)
    (ss : List (List Char)) (h : cypher.data = interTok queryVecTok (s0 :: s1 :: ss)) :
    containsPlaceholder cypher = true := by
  rw [containsPlaceholder, h, interTok_cons_cons, List.append_assoc]
  exact hasQueryVectorTok_append s0 _

/-- Claim C2 (counterexample): with an embed stub returning `[1, 2]`
(dimensionality 2), the injected literal is `CAST([1,2] AS FLOAT[384])` —
the cast's declared length is the hard-coded 384, not the vector's
dimensionality 2 as the claim states. -/
theorem vector_cypher_cast_length_cex :
    (executeVectorCypherTool true true (.ok ()) (.ok ()) [1, 2] (.ok [])
        "A \x7b\x7bQUERY_VECTOR\x7d\x7d B").executedCypher =
      some "A CAST([1,2] AS FLOAT[384]) B" ∧
    ("A CAST([1,2] AS FLOAT[384]) B" : String) ≠ "A CAST([1,2] AS FLOAT[2]) B" := by
  constructor
  · rfl
  · decide

/-- Claim C2 (amended): given embedding readiness and a successfully
initialized embedder, on a template of `k + 1 ≥ 2` brace-free segments
separated by `k ≥ 1` placeholder occurrences, the vector query tool calls
`embed` once and replaces every occurrence with the same literal
`CAST([v1,...,vd] AS FLOAT[384])` — the declared cast length is the fixed
384 regardless of the vector's dimensionality. -/
theorem vector_cypher_substitutes_all_occurrences
    (embedderReady : Bool) (initPrimary initFallback : Except InitErr Unit)
    (vec : List Int) (queryOutcome : Except String (List QueryRow))
    (cypher : String) (segs : List (List Char)) (calls : List (Option String))
    (hsegs : cypher.data = interTok queryVecTok segs)
    (hk : 2 ≤ segs.length)
    (hbr : ∀ s ∈ segs, ∀ c ∈ s, c ≠ '\x7b')
    (hinit : ensureEmbedder embedderReady initPrimary initFallback = .ok calls) :
    (executeVectorCypherTool true embedderReady initPrimary initFallback
        vec queryOutcome cypher).embedCalls = 1 ∧
    (executeVectorCypherTool true embedderReady initPrimary initFallback
        vec queryOutcome cypher).executedCypher =
      some (String.mk (interTok (vecLiteral vec).data segs)) := by
  have hcontains : containsPlaceholder cypher = true := by
    match segs, hk with
    | s0 :: s1 :: ss, _ => exact containsPlaceholder_of_segs cypher s0 s1 ss hsegs
  have hrepl : replaceQueryVector cypher (vecLiteral vec) =
      String.mk (interTok (vecLiteral vec).data segs) := by
    rw [replaceQueryVector, hsegs]
    exact congrArg String.mk
      (replLoop_interTok (vecLiteral vec).data segs (by
        intro hnil
        rw [hnil] at hk
        simp at hk) hbr)
  cases queryOutcome <;>
    simp [executeVectorCypherTool, hcontains, hinit, hrepl]

/-- Witness for C2's amended theorem: template `"A \x7b\x7bQUERY_VECTOR\x7d\x7d B"`
(two segments) with embed stub `[1, 2]` gets exactly one substitution of
`CAST([1,2] AS FLOAT[384])`. -/
theorem vector_cypher_substitutes_all_occurrences_witness :
    (executeVectorCypherTool true true (.ok ()) (.ok ()) [1, 2] (.ok [])
        "A \x7b\x7bQUERY_VECTOR\x7d\x7d B").embedCalls = 1 ∧
    (executeVectorCypherTool true true (.ok ()) (.ok ()) [1, 2] (.ok [])
        "A \x7b\x7bQUERY_VECTOR\x7d\x7d B").executedCypher =
      some (String.mk (interTok (vecLiteral [1, 2]).data [['A', ' '], [' ', 'B']])) :=
  vector_cypher_substitutes_all_occurrences true (.ok ()) (.ok ()) [1, 2] (.ok [])
    "A \x7b\x7bQUERY_VECTOR\x7d\x7d B" [['A', ' '], [' ', 'B']] []
    (by decide) (by decide) (by decide) rfl

/-- Pushing a connection onto a map entry does not change its key. -/
theorem pushConn_fst (k : Option JVal) (conn : ConnInfo)
    (p : Option JVal × MatchGroup) : (pushConn k conn p).1 = p.1 := by
  rw [pushConn]
  split <;> rfl

/-- One grouping step acts on the key sequence as one first-seen
deduplication step. -/
theorem insertRow_fst (acc : List (Option JVal × MatchGroup)) (r : CtxRow) :
    (insertRow acc r).map Prod.fst = seenStep (acc.map Prod.fst) (rowKey r) := by
  rw [insertRow, seenStep]
  by_cases hmem : rowKey r ∈ acc.map Prod.fst
  · have hany : acc.any (fun p => p.1 == rowKey r) = true := by
      rw [List.any_eq_true]
      obtain ⟨p, hp, hfst⟩ := List.mem_map.mp hmem
      exact ⟨p, hp, by simp [hfst]⟩
    rw [if_pos hany, if_pos hmem, List.map_map]
    exact List.map_congr_left (fun p _ => pushConn_fst (rowKey r) (rowConn r) p)
  · have hany : acc.any (fun p => p.1 == rowKey r) = false := by
      rw [List.any_eq_false]
      intro p hp
      simp only [beq_iff_eq]
      intro hfst
      exact hmem (List.mem_map.mpr ⟨p, hp, hfst⟩)
    rw [if_neg (by simp [hany]), if_neg hmem]
    simp

/-- The grouping fold acts on the key sequence as the first-seen
deduplication fold. -/
theorem groupRows_fst_aux :
    ∀ (rows : List CtxRow) (acc : List (Option JVal × MatchGroup)),
      ((rows.foldl insertRow acc).map Prod.fst) =
        (rows.map rowKey).foldl seenStep (acc.map Prod.fst) := by
  intro rows
  induction rows with
  | nil => intro acc; rfl
  | cons r rows ih =>
    intro acc
    rw [List.foldl_cons, List.map_cons, List.foldl_cons, ih (insertRow acc r),
      insertRow_fst]

/-- The groups appear in first-seen match order, keyed by the match's
identity field. -/
theorem groupRows_fst (rows : List CtxRow) :
    (groupRows rows).map Prod.fst = firstSeenKeys (rows.map rowKey) := by
  rw [groupRows, firstSeenKeys, groupRows_fst_aux rows []]
  rfl

/-- First-seen deduplication preserves key distinctness. -/
theorem foldl_seenStep_nodup :
    ∀ (ks acc : List (Option JVal)), acc.Nodup → (ks.foldl seenStep acc).Nodup := by
  intro ks
  induction ks with
  | nil => intro acc h; exact h
  | cons k ks ih =>
    intro acc h
    rw [List.foldl_cons]
    apply ih
    rw [seenStep]
    by_cases hk : k ∈ acc
    · rw [if_pos hk]; exact h
    · rw [if_neg hk]
      simp [List.nodup_append, h, hk]

/-- The key list of the grouping result has no duplicates. -/
theorem groupRows_fst_nodup (rows : List CtxRow) :
    ((groupRows rows).map Prod.fst).Nodup := by
  rw [groupRows_fst, firstSeenKeys]
  exact foldl_seenStep_nodup (rows.map rowKey) [] List.nodup_nil

/-- Unfolding the count lookup over a cons cell. -/
theorem lookupConnCount_cons (q : Option JVal × MatchGroup)
    (acc : List (Option JVal × MatchGroup)) (k : Option JVal) :
    lookupConnCount (q :: acc) k =
      if q.1 == k then q.2.connections.length else lookupConnCount acc k := by
  cases hq : q.1 == k <;> simp [lookupConnCount, List.find?_cons, hq]

/-- Pushing onto entries of a different key leaves a key's count alone. -/
theorem lookupConnCount_map_push_ne
    (acc : List (Option JVal × MatchGroup)) (rk k : Option JVal) (conn : ConnInfo)
    (h : rk ≠ k) :
    lookupConnCount (acc.map (pushConn rk conn)) k = lookupConnCount acc k := by
  induction acc with
  | nil => rfl
  | cons q acc ih =>
    rw [List.map_cons, lookupConnCount_cons, lookupConnCount_cons, pushConn_fst]
    by_cases hq : (q.1 == k) = true
    · have hq1 : q.1 = k := by simpa using hq
      have hpush : pushConn rk conn q = q := by
        rw [pushConn, if_neg]
        simp [hq1]
        exact Ne.symm h
      rw [hpush]
      simp [hq]
    · have hq2 : (q.1 == k) = false := by
        revert hq
        cases q.1 == k <;> simp
      rw [hq2, if_neg (by simp), if_neg (by simp), ih]

/-- Pushing onto an existing key's entries bumps that key's count by one. -/
theorem lookupConnCount_map_push_self
    (acc : List (Option JVal × MatchGroup)) (rk : Option JVal) (conn : ConnInfo)
    (h : acc.any (fun p => p.1 == rk) = true) :
    lookupConnCount (acc.map (pushConn rk conn)) rk = lookupConnCount acc rk + 1 := by
  induction acc with
  | nil => simp at h
  | cons q acc ih =>
    rw [List.map_cons, lookupConnCount_cons, lookupConnCount_cons, pushConn_fst]
    by_cases hq : (q.1 == rk) = true
    · have hpush : pushConn rk conn q =
          (q.1, { q.2 with connections := q.2.connections ++ [conn] }) := by
        rw [pushConn, if_pos hq]
      rw [hpush, if_pos hq, if_pos hq]
      simp
    · have hq2 : (q.1 == rk) = false := by
        revert hq
        cases q.1 == rk <;> simp
      have hany : acc.any (fun p => p.1 == rk) = true := by
        rw [List.any_cons, hq2] at h
        simpa using h
      rw [hq2, if_neg (by simp), if_neg (by simp), ih hany]

/-- Appending a fresh entry of a different key leaves a key's count alone. -/
theorem lookupConnCount_append_single_ne
    (acc : List (Option JVal × MatchGroup)) (kg k : Option JVal) (g : MatchGroup)
    (h : (kg == k) = false) :
    lookupConnCount (acc ++ [(kg, g)]) k = lookupConnCount acc k := by
  induction acc with
  | nil =>
    rw [List.nil_append, lookupConnCount_cons]
    simp [h, lookupConnCount]
  | cons q acc ih =>
    rw [List.cons_append, lookupConnCount_cons, lookupConnCount_cons, ih]

/-- Appending a fresh entry for an unseen key sets that key's count to
the new group's connection count. -/
theorem lookupConnCount_append_single_self
    (acc : List (Option JVal × MatchGroup)) (k : Option JVal) (g : MatchGroup)
    (h : acc.any (fun p => p.1 == k) = false) :
    lookupConnCount (acc ++ [(k, g)]) k = g.connections.length := by
  induction acc with
  | nil =>
    rw [List.nil_append, lookupConnCount_cons]
    simp
  | cons q acc ih =>
    rw [List.any_cons] at h
    have hq : (q.1 == k) = false := by
      cases hqq : q.1 == k
      · rfl
      · rw [hqq] at h; simp at h
    have hany : acc.any (fun p => p.1 == k) = false := by
      rw [hq] at h
      simpa using h
    rw [List.cons_append, lookupConnCount_cons, hq, if_neg (by simp), ih hany]

/-- An unseen key has count zero. -/
theorem lookupConnCount_of_any_false
    (acc : List (Option JVal × MatchGroup)) (k : Option JVal)
    (h : acc.any (fun p => p.1 == k) = false) :
    lookupConnCount acc k = 0 := by
  induction acc with
  | nil => rfl
  | cons q acc ih =>
    rw [List.any_cons] at h
    have hq : (q.1 == k) = false := by
      cases hqq : q.1 == k
      · rfl
      · rw [hqq] at h; simp at h
    have hany : acc.any (fun p => p.1 == k) = false := by
      rw [hq] at h
      simpa using h
    rw [lookupConnCount_cons, hq, if_neg (by simp), ih hany]

/-- One grouping step bumps exactly the arriving row's key count. -/
theorem lookupConnCount_insertRow (acc : List (Option JVal × MatchGroup))
    (r : CtxRow) (k : Option JVal) :
    lookupConnCount (insertRow acc r) k =
      lookupConnCount acc k + (if rowKey r == k then 1 else 0) := by
  rw [insertRow]
  by_cases ha : (acc.any fun p => p.1 == rowKey r) = true
  · rw [if_pos ha]
    by_cases he : (rowKey r == k) = true
    · have hek : rowKey r = k := by simpa using he
      rw [he, if_pos rfl, ← hek]
      exact lookupConnCount_map_push_self acc (rowKey r) (rowConn r) ha
    · have hek : rowKey r ≠ k := by simpa using he
      have he2 : (rowKey r == k) = false := by
        revert he
        cases rowKey r == k <;> simp
      rw [he2, if_neg (by simp)]
      simpa using lookupConnCount_map_push_ne acc (rowKey r) k (rowConn r) hek
  · have ha2 : (acc.any fun p => p.1 == rowKey r) = false := by
      revert ha
      cases acc.any fun p => p.1 == rowKey r <;> simp
    rw [if_neg (by simp [ha2])]
    by_cases he : (rowKey r == k) = true
    · have hek : rowKey r = k := by simpa using he
      rw [he, if_pos rfl, ← hek,
        lookupConnCount_append_single_self acc (rowKey r) _ ha2,
        lookupConnCount_of_any_false acc (rowKey r) ha2]
      simp
    · have he2 : (rowKey r == k) = false := by
        revert he
        cases rowKey r == k <;> simp
      rw [he2, if_neg (by simp)]
      simpa using lookupConnCount_append_single_ne acc (rowKey r) k _ he2

/-- The grouping fold accumulates each key's row count. -/
theorem lookupConnCount_groupRows_aux :
    ∀ (rows : List CtxRow) (acc : List (Option JVal × MatchGroup)) (k : Option JVal),
      lookupConnCount (rows.foldl insertRow acc) k =
        lookupConnCount acc k + rows.countP (fun r => rowKey r == k) := by
  intro rows
  induction rows with
  | nil => intro acc k; simp
  | cons r rows ih =>
    intro acc k
    rw [List.foldl_cons, ih (insertRow acc r) k, lookupConnCount_insertRow,
      List.countP_cons]
    omega

/-- Each group's connection count equals the number of rows carrying its
key. -/
theorem lookupConnCount_groupRows (rows : List CtxRow) (k : Option JVal) :
    lookupConnCount (groupRows rows) k = rows.countP (fun r => rowKey r == k) := by
  rw [groupRows, lookupConnCount_groupRows_aux rows [] k,
    show lookupConnCount [] k = 0 from rfl, Nat.zero_add]

/-- Claim C6: on a non-empty flattened relation the tool groups rows by
the match identity field (name-first, positional fallback) in first-seen
match order without re-sorting, with distinct group keys; each group's
connection count equals the number of rows carrying its key; at most 15
connections are displayed per group, with a `... and N more` suffix,
`N = total - 15`, exactly when a group has more than 15; and the
two-`"A"`s-one-`"B"` scenario yields exactly groups `A` (2 connections)
then `B` (1 connection). -/
theorem semantic_search_with_context_grouping (results : List CtxRow)
    (h : results ≠ []) :
    (groupRows results).map Prod.fst = firstSeenKeys (results.map rowKey) ∧
    ((groupRows results).map Prod.fst).Nodup ∧
    (∀ k, lookupConnCount (groupRows results) k =
      results.countP (fun r => rowKey r == k)) ∧
    (∀ g : MatchGroup, (connectionsShown g).length = min g.connections.length 15) ∧
    (∀ g : MatchGroup, 15 < g.connections.length →
      moreNote g = "\n      ... and " ++ Nat.repr (g.connections.length - 15) ++ " more") ∧
    (∀ g : MatchGroup, g.connections.length ≤ 15 → moreNote g = "") ∧
    (groupRows demoCtxRows).map (fun p => (p.1, p.2.connections.length)) =
      [(some (JVal.str "A"), 2), (some (JVal.str "B"), 1)] := by
  refine ⟨groupRows_fst results, groupRows_fst_nodup results,
    lookupConnCount_groupRows results, ?_, ?_, ?_, by decide⟩
  · intro g
    rw [connectionsShown, List.length_take, Nat.min_comm]
  · intro g hg
    rw [moreNote, if_pos hg]
  · intro g hg
    rw [moreNote, if_neg (by omega)]

/-- Witness for C6 at the concrete scenario relation. -/
theorem semantic_search_with_context_grouping_witness :
    (groupRows demoCtxRows).map Prod.fst = firstSeenKeys (demoCtxRows.map rowKey) ∧
    ((groupRows demoCtxRows).map Prod.fst).Nodup ∧
    (∀ k, lookupConnCount (groupRows demoCtxRows) k =
      demoCtxRows.countP (fun r => rowKey r == k)) ∧
    (∀ g : MatchGroup, (connectionsShown g).length = min g.connections.length 15) ∧
    (∀ g : MatchGroup, 15 < g.connections.length →
      moreNote g = "\n      ... and " ++ Nat.repr (g.connections.length - 15) ++ " more") ∧
    (∀ g : MatchGroup, g.connections.length ≤ 15 → moreNote g = "") ∧
    (groupRows demoCtxRows).map (fun p => (p.1, p.2.connections.length)) =
      [(some (JVal.str "A"), 2), (some (JVal.str "B"), 1)] :=
  semantic_search_with_context_grouping demoCtxRows (by decide)

end GitNexus
